import Mathlib

/-!
# A verification development for `wc2.c`

Shallow embedding of the DFA-based word-count program `src/wc2.c`:
the transition-table construction (`compile_utf8_statemachine`,
`build_basic`, `build_urow`, `build_unicode`), the chunk processors
(`parse_chunk`, `parse_chunk_p`, `parse_chunk_pp` over the table
precomputed by `compile_pointers`), and theorems about them.

Bytes and states are modelled as `Nat` (the C types are `unsigned char`
and small `unsigned` indices; all values stay far below every relevant
power of two, so no wrap-around arithmetic arises in the modelled code).
Counters (`unsigned` / `unsigned long` in C) are modelled as unbounded
naturals; every identity proved below is preserved by reduction mod 2^32
or 2^64, and no subtraction occurs in the counting code.
-/

namespace Wc2

/-! ## The state enumeration (the two anonymous `enum`s of wc2.c) -/

def DUO2_xx : Nat := 0
def DUO2_C2 : Nat := 1
def TRI2_E0 : Nat := 2
def TRI2_E1 : Nat := 3
def TRI2_E2 : Nat := 4
def TRI2_E3 : Nat := 5
def TRI2_ED : Nat := 6
def TRI2_EE : Nat := 7
def TRI2_xx : Nat := 8
def TRI3_E0_xx : Nat := 9
def TRI3_E1_xx : Nat := 10
def TRI3_E1_9a : Nat := 11
def TRI3_E2_80 : Nat := 12
def TRI3_E2_81 : Nat := 13
def TRI3_E2_xx : Nat := 14
def TRI3_E3_80 : Nat := 15
def TRI3_E3_81 : Nat := 16
def TRI3_E3_xx : Nat := 17
def TRI3_Ed_xx : Nat := 18
def TRI3_Ee_xx : Nat := 19
def TRI3_xx_xx : Nat := 20
def QUAD2_xx : Nat := 21
def QUAD2_F0 : Nat := 22
def QUAD2_F4 : Nat := 23
def QUAD3_xx_xx : Nat := 24
def QUAD3_F0_xx : Nat := 25
def QUAD3_F4_xx : Nat := 26
def QUAD4_xx_xx_xx : Nat := 27
def QUAD4_F0_xx_xx : Nat := 28
def QUAD4_F4_xx_xx : Nat := 29
def ILLEGAL : Nat := 30

def WASSPACE : Nat := 0
def NEWLINE : Nat := 1
def NEWWORD : Nat := 2
def WASWORD : Nat := 3
def USPACE : Nat := 4
def UWORD : Nat := USPACE + ILLEGAL + 1
def STATE_MAX : Nat := UWORD + ILLEGAL + 1

/-! ## Locale predicates

`wc2.c` calls `setlocale(LC_ALL, "")` and then the libc classifiers.
`isspace` is only consulted for bytes `0x00..0x7F` in multibyte mode
(`build_basic` tests the `0x80` bit first) and models the standard
whitespace set; `iswspace` is consulted only at the specific code points
listed in `build_unicode`.  Modelled from the spec: the platform's
`iswspace` recognizes NEL, NBSP, Ogham space, `U+2000-U+200B`,
`U+2028`, `U+2029`, `U+202F`, `U+205F` and `U+3000` as white space. -/

def isspace (c : Nat) : Bool :=
  decide ((9 ≤ c ∧ c ≤ 13) ∨ c = 32)

def iswspace (i : Nat) : Bool :=
  decide (i = 0x85 ∨ i = 0xA0 ∨ i = 0x1680 ∨ (0x2000 ≤ i ∧ i ≤ 0x200B) ∨
    i = 0x2028 ∨ i = 0x2029 ∨ i = 0x202F ∨ i = 0x205F ∨ i = 0x3000)

/-! ## Table construction -/

/-- `build_basic(row, default_state, ubase)` of wc2.c, expressed as the
value written to `row[c]`: the ASCII/lead-byte classification shared by
every character-boundary row and by the `ILLEGAL` rows. -/
def build_basic (default_state ubase c : Nat) : Nat :=
  if c &&& 0x80 ≠ 0 then
    if c &&& 0xE0 = 0xC0 then
      if c < 0xC2 then ubase + ILLEGAL
      else if c = 0xC2 then ubase + DUO2_C2
      else ubase + DUO2_xx
    else if c &&& 0xF0 = 0xE0 then
      if c = 0xE0 then ubase + TRI2_E0
      else if c = 0xE1 then ubase + TRI2_E1
      else if c = 0xE2 then ubase + TRI2_E2
      else if c = 0xE3 then ubase + TRI2_E3
      else if c = 0xED then ubase + TRI2_ED
      else if c = 0xEE then ubase + TRI2_EE
      else ubase + TRI2_xx
    else if c &&& 0xF8 = 0xF0 then
      if 0xF5 ≤ c then ubase + ILLEGAL
      else if c = 0xF0 then ubase + QUAD2_F0
      else if c = 0xF4 then ubase + QUAD2_F4
      else ubase + QUAD2_xx
    else ubase + ILLEGAL
  else if c = 10 then NEWLINE
  else if isspace c then WASSPACE
  else default_state

/-- `build_urow(ubase, id, next)` of wc2.c, expressed as the value of
cell `c` of the row: a copy of the context's `ILLEGAL` row (which is
`build_basic`) with `0x80..0xBF` sent to the resolved `next` target and
`0xC0..0xFF` sent to the context's `ILLEGAL` state.  `nxt` is the
already-resolved target (`ubase + next`, or the context's default state
when the C code passes `next = 0`, since
`table[ubase+ILLEGAL][0] = default_state`). -/
def urow (default_state ubase nxt c : Nat) : Nat :=
  if 0xC0 ≤ c then ubase + ILLEGAL
  else if 0x80 ≤ c then nxt
  else build_basic default_state ubase c

/-- The final contents of row `ubase + id` after `build_unicode
(default_state, ubase)` of wc2.c has run: the `build_urow` calls, the
five explicit sub-state overrides for `0xE1 0x9A` / `0xE2 0x80` /
`0xE2 0x81` / `0xE3 0x80` / `0xE3 0x81`, the Unicode-space overrides
(guarded by `iswspace`; the loop index satisfies
`0x80 + (i &&& 0x6F) = 0x80 + (i - 0x2000)` for `i = 0x2000..0x200B`),
and the trailing illegal-range loops for `0xE0`/`0xF0`/`0xF4`/`0xED`.
Later C writes win, so they appear as earlier branches here; all
distinct writes land on distinct (row, cell) pairs. -/
def utable (default_state ubase id c : Nat) : Nat :=
  if id = ILLEGAL then build_basic default_state ubase c
  else if id = DUO2_xx then urow default_state ubase default_state c
  else if id = DUO2_C2 then
    if c = 0x85 ∧ iswspace 0x85 then WASSPACE
    else if c = 0xA0 ∧ iswspace 0xA0 then WASSPACE
    else urow default_state ubase default_state c
  else if id = TRI2_E0 then
    if 0x80 ≤ c ∧ c < 0xA0 then ubase + ILLEGAL
    else urow default_state ubase (ubase + TRI3_E0_xx) c
  else if id = TRI2_E1 then
    if c = 0x9A then ubase + TRI3_E1_9a
    else urow default_state ubase (ubase + TRI3_E1_xx) c
  else if id = TRI2_E2 then
    if c = 0x80 then ubase + TRI3_E2_80
    else if c = 0x81 then ubase + TRI3_E2_81
    else urow default_state ubase (ubase + TRI3_E2_xx) c
  else if id = TRI2_E3 then
    if c = 0x80 then ubase + TRI3_E3_80
    else if c = 0x81 then ubase + TRI3_E3_81
    else urow default_state ubase (ubase + TRI3_E3_xx) c
  else if id = TRI2_ED then
    if 0xA0 ≤ c ∧ c < 0xC0 then ubase + ILLEGAL
    else urow default_state ubase (ubase + TRI3_Ed_xx) c
  else if id = TRI2_EE then urow default_state ubase (ubase + TRI3_Ee_xx) c
  else if id = TRI2_xx then urow default_state ubase (ubase + TRI3_xx_xx) c
  else if id = TRI3_E0_xx then urow default_state ubase default_state c
  else if id = TRI3_E1_xx then urow default_state ubase default_state c
  else if id = TRI3_E1_9a then
    if c = 0x80 ∧ iswspace 0x1680 then WASSPACE
    else urow default_state ubase default_state c
  else if id = TRI3_E2_80 then
    if 0x80 ≤ c ∧ c ≤ 0x8B ∧ iswspace (0x2000 + (c - 0x80)) then WASSPACE
    else if c = 0xA8 ∧ iswspace 0x2028 then WASSPACE
    else if c = 0xA9 ∧ iswspace 0x2029 then WASSPACE
    else if c = 0xAF ∧ iswspace 0x202F then WASSPACE
    else urow default_state ubase default_state c
  else if id = TRI3_E2_81 then
    if c = 0x9F ∧ iswspace 0x205F then WASSPACE
    else urow default_state ubase default_state c
  else if id = TRI3_E3_80 then
    if c = 0x80 ∧ iswspace 0x3000 then WASSPACE
    else urow default_state ubase default_state c
  else if id = TRI3_E3_81 then urow default_state ubase default_state c
  else if id = TRI3_E3_xx then urow default_state ubase default_state c
  else if id = TRI3_Ed_xx then urow default_state ubase default_state c
  else if id = TRI3_Ee_xx then urow default_state ubase default_state c
  else if id = TRI3_xx_xx then urow default_state ubase default_state c
  else if id = QUAD2_xx then urow default_state ubase (ubase + QUAD3_xx_xx) c
  else if id = QUAD2_F0 then
    if 0x80 ≤ c ∧ c < 0x90 then ubase + ILLEGAL
    else urow default_state ubase (ubase + QUAD3_F0_xx) c
  else if id = QUAD2_F4 then
    if 0x90 ≤ c ∧ c < 0xC0 then ubase + ILLEGAL
    else urow default_state ubase (ubase + QUAD3_F4_xx) c
  else if id = QUAD3_xx_xx then urow default_state ubase (ubase + QUAD4_xx_xx_xx) c
  else if id = QUAD3_F0_xx then urow default_state ubase (ubase + QUAD4_F0_xx_xx) c
  else if id = QUAD3_F4_xx then urow default_state ubase (ubase + QUAD4_F4_xx_xx) c
  else urow default_state ubase default_state c

/-- The global `table[256][256]` after `compile_utf8_statemachine
(is_multibyte)` of wc2.c has run, as a function of the state row `s` and
byte column `c`.  In multibyte mode rows `0..3` are built by
`build_WASSPACE` / `build_WASWORD` (both are `build_basic` with the
indicated default state and unicode base) and rows `USPACE..STATE_MAX-1`
by the two `build_unicode` calls; in ASCII mode only rows `0..3` are
written.  The global array is zero-initialized, so unwritten rows
read as state `0`. -/
def table (is_multibyte : Bool) (s c : Nat) : Nat :=
  if is_multibyte then
    if s = WASSPACE ∨ s = NEWLINE then build_basic NEWWORD USPACE c
    else if s = NEWWORD ∨ s = WASWORD then build_basic WASWORD UWORD c
    else if USPACE ≤ s ∧ s < UWORD then utable NEWWORD USPACE (s - USPACE) c
    else if UWORD ≤ s ∧ s < STATE_MAX then utable WASWORD UWORD (s - UWORD) c
    else 0
  else
    if s < 4 then
      if c = 10 then NEWLINE
      else if isspace c then WASSPACE
      else if s = WASSPACE ∨ s = NEWLINE then NEWWORD
      else WASWORD
    else 0

example : UWORD = 35 ∧ STATE_MAX = 66 := by decide
example : table true WASSPACE 0xE2 = USPACE + TRI2_E2 := by decide
example : table true (USPACE + TRI2_E2) 0x82 = USPACE + TRI3_E2_xx := by decide
example : table true (USPACE + TRI3_E2_xx) 0xAC = NEWWORD := by decide
example : table true (USPACE + TRI2_E1) 0x9A = USPACE + TRI3_E1_9a := by decide
example : table true (USPACE + TRI3_E1_9a) 0x80 = WASSPACE := by decide
example : table true WASWORD 0xC0 = UWORD + ILLEGAL := by decide
example : table false WASSPACE 97 = NEWWORD := by decide

/-! ## The chunk processors -/

/-- `struct results` of wc2.c. -/
structure results where
  line_count : Nat
  word_count : Nat
  char_count : Nat
  byte_count : Nat
deriving DecidableEq, Repr

/-- Field-wise addition, as performed by `parse_file` and `main` when
summing chunk and file results into running totals. -/
instance : Add results :=
  ⟨fun a b =>
    ⟨a.line_count + b.line_count, a.word_count + b.word_count,
     a.char_count + b.char_count, a.byte_count + b.byte_count⟩⟩

theorem results.add_def (a b : results) :
    a + b = ⟨a.line_count + b.line_count, a.word_count + b.word_count,
             a.char_count + b.char_count, a.byte_count + b.byte_count⟩ := rfl

/-- The inner loop of `parse_chunk`: one table lookup and one tally
increment per byte.  The C `counts[STATE_MAX]` array is modelled as a
function `Nat → Nat` (only the four public cells are ever read back). -/
def run (mode : Bool) (counts : Nat → Nat) (state : Nat) :
    List Nat → (Nat → Nat) × Nat
  | [] => (counts, state)
  | c :: cs =>
      let s2 := table mode state c
      run mode (Function.update counts s2 (counts s2 + 1)) s2 cs

/-- `parse_chunk(buf, length, inout_state)` of wc2.c: returns the
`struct results` for the chunk together with the value stored back into
`*inout_state`. -/
def parse_chunk (mode : Bool) (buf : List Nat) (inout_state : Nat) :
    results × Nat :=
  let r := run mode (fun _ => 0) inout_state buf
  ({ line_count := r.1 NEWLINE,
     word_count := r.1 NEWWORD,
     char_count := r.1 NEWLINE + r.1 WASSPACE + r.1 WASWORD + r.1 NEWWORD,
     byte_count := buf.length }, r.2)

/-- The inner `while (buf < end)` loop of `parse_chunk_p`, which walks
the same index table with a pointer cursor instead of a `for` index. -/
def run_p (mode : Bool) (counts : Nat → Nat) (state : Nat) :
    List Nat → (Nat → Nat) × Nat
  | [] => (counts, state)
  | c :: cs =>
      let s2 := table mode state c
      run_p mode (Function.update counts s2 (counts s2 + 1)) s2 cs

/-- `parse_chunk_p(buf, length, inout_state)` of wc2.c. -/
def parse_chunk_p (mode : Bool) (buf : List Nat) (inout_state : Nat) :
    results × Nat :=
  let r := run_p mode (fun _ => 0) inout_state buf
  ({ line_count := r.1 NEWLINE,
     word_count := r.1 NEWWORD,
     char_count := r.1 NEWLINE + r.1 WASSPACE + r.1 WASWORD + r.1 NEWWORD,
     byte_count := buf.length }, r.2)

/-- `sizeof(void*)` on the modelled platform. -/
def sizeof_voidp : Nat := 8

/-- The `PSTATE` macro of wc2.c: pointers into `table_p` are modelled as
byte offsets from `(char*)table_p`, so `PSTATE(p) = p / (256 * sizeof(void*))`. -/
def PSTATE (p : Nat) : Nat := p / (256 * sizeof_voidp)

/-- `table_p` after `compile_pointers()` of wc2.c: for every row
`i < STATE_MAX` the cell holds the pointer
`(char*)table_p + table[i][j]*256*sizeof(void*)`, i.e. the byte offset
`table[i][j]*256*sizeof(void*)`.  Rows `STATE_MAX..255` are never
written by `compile_pointers` (and never reached from an in-domain
state); their zero-initialized cells are modelled as offset `0`. -/
def table_p (mode : Bool) (i j : Nat) : Nat :=
  if i < STATE_MAX then table mode i j * (256 * sizeof_voidp) else 0

/-- The inner loop of `parse_chunk_pp`: the cursor `p` is the byte
offset of the current row pointer; `state = state[c]` reads cell `c` of
the row `PSTATE(p)`, and the tally is incremented at `PSTATE` of the new
pointer. -/
def run_pp (mode : Bool) (counts : Nat → Nat) (p : Nat) :
    List Nat → (Nat → Nat) × Nat
  | [] => (counts, p)
  | c :: cs =>
      let p2 := table_p mode (PSTATE p) c
      run_pp mode (Function.update counts (PSTATE p2) (counts (PSTATE p2) + 1)) p2 cs

/-- `parse_chunk_pp(buf, length, inout_state)` of wc2.c: the state
pointer starts at `(char*)table_p + (*inout_state) * 256 * sizeof(void*)`
and `PSTATE` of the final pointer is stored back. -/
def parse_chunk_pp (mode : Bool) (buf : List Nat) (inout_state : Nat) :
    results × Nat :=
  let r := run_pp mode (fun _ => 0) (inout_state * (256 * sizeof_voidp)) buf
  ({ line_count := r.1 NEWLINE,
     word_count := r.1 NEWWORD,
     char_count := r.1 NEWLINE + r.1 WASSPACE + r.1 WASWORD + r.1 NEWWORD,
     byte_count := buf.length }, PSTATE r.2)

/-! ## The transition trace

`transitions mode s buf` is the list of states entered on each byte of
`buf`, starting from `s`; `endState` is the last of them (or `s`).
`parse_chunk`'s tallies are occurrence counts in this list. -/

def transitions (mode : Bool) (s : Nat) : List Nat → List Nat
  | [] => []
  | c :: cs => table mode s c :: transitions mode (table mode s c) cs

def endState (mode : Bool) (s : Nat) : List Nat → Nat
  | [] => s
  | c :: cs => endState mode (table mode s c) cs

theorem transitions_length (mode : Bool) (s : Nat) (bs : List Nat) :
    (transitions mode s bs).length = bs.length := by
  induction bs generalizing s with
  | nil => rfl
  | cons c cs ih => simp [transitions, ih]

theorem transitions_append (mode : Bool) (s : Nat) (a b : List Nat) :
    transitions mode s (a ++ b) =
      transitions mode s a ++ transitions mode (endState mode s a) b := by
  induction a generalizing s with
  | nil => rfl
  | cons c cs ih => simp [transitions, endState, ih]

theorem endState_append (mode : Bool) (s : Nat) (a b : List Nat) :
    endState mode s (a ++ b) = endState mode (endState mode s a) b := by
  induction a generalizing s with
  | nil => rfl
  | cons c cs ih => simp [endState, ih]

theorem run_snd (mode : Bool) (counts : Nat → Nat) (s : Nat) (bs : List Nat) :
    (run mode counts s bs).2 = endState mode s bs := by
  induction bs generalizing counts s with
  | nil => rfl
  | cons c cs ih => simp [run, endState, ih]

theorem run_fst (mode : Bool) (counts : Nat → Nat) (s : Nat) (bs : List Nat)
    (x : Nat) :
    (run mode counts s bs).1 x = counts x + (transitions mode s bs).count x := by
  induction bs generalizing counts s with
  | nil => simp [run, transitions]
  | cons c cs ih =>
      simp only [run, transitions, ih, List.count_cons, Function.update_apply]
      by_cases h : x = table mode s c <;> simp [h] <;> omega

/-- `parse_chunk` characterized through the transition trace. -/
theorem parse_chunk_eq (mode : Bool) (buf : List Nat) (s : Nat) :
    parse_chunk mode buf s =
      ({ line_count := (transitions mode s buf).count NEWLINE,
         word_count := (transitions mode s buf).count NEWWORD,
         char_count := (transitions mode s buf).count NEWLINE +
           (transitions mode s buf).count WASSPACE +
           (transitions mode s buf).count WASWORD +
           (transitions mode s buf).count NEWWORD,
         byte_count := buf.length }, endState mode s buf) := by
  simp [parse_chunk, run_fst, run_snd]

/-! ## Shared facts about the table -/

set_option maxRecDepth 8000
set_option maxHeartbeats 2000000

/-- Every entry of every built row of the table is a valid row index:
this is what keeps every `table[state][c]` lookup of the chunk
processors inside the first `STATE_MAX` rows. -/
theorem table_lt : ∀ (mode : Bool), ∀ s, s < STATE_MAX → ∀ c, c < 256 →
    table mode s c < STATE_MAX := by decide

/-- The four character-boundary states, the only tally cells the chunk
processors ever read back. -/
def isBoundary (x : Nat) : Bool :=
  x == NEWLINE || x == WASSPACE || x == WASWORD || x == NEWWORD

theorem isBoundary_iff (x : Nat) : isBoundary x = true ↔ x < 4 := by
  simp only [isBoundary, Bool.or_eq_true, beq_iff_eq, NEWLINE, WASSPACE,
    WASWORD, NEWWORD]
  omega

theorem countP_isBoundary (l : List Nat) :
    l.countP (fun x => isBoundary x) =
      l.count NEWLINE + l.count WASSPACE + l.count WASWORD + l.count NEWWORD := by
  induction l with
  | nil => rfl
  | cons a l ih =>
      simp only [List.countP_cons, List.count_cons, ih, beq_iff_eq]
      have hsplit : (if isBoundary a = true then 1 else 0 : Nat) =
          (if a = NEWLINE then 1 else 0) + (if a = WASSPACE then 1 else 0) +
          (if a = WASWORD then 1 else 0) + (if a = NEWWORD then 1 else 0) := by
        by_cases h : a < 4
        · interval_cases a <;> simp [isBoundary, NEWLINE, WASSPACE, WASWORD, NEWWORD]
        · have hb : isBoundary a = false := by
            cases h2 : isBoundary a with
            | false => rfl
            | true => exact absurd ((isBoundary_iff a).1 h2) h
          have h1 : a ≠ NEWLINE := by simp only [NEWLINE]; omega
          have h0 : a ≠ WASSPACE := by simp only [WASSPACE]; omega
          have h3 : a ≠ WASWORD := by simp only [WASWORD]; omega
          have h2 : a ≠ NEWWORD := by simp only [NEWWORD]; omega
          simp [hb, h1, h0, h3, h2]
      omega

/-! ## Claim theorems -/

/-- C1: for every input byte sequence, every split of it into two
buffers at any byte position (including positions inside a multi-byte
UTF-8 sequence), and any inbound state: calling `parse_chunk` on the
first buffer and then on the second with the state threaded through
yields, by field-wise addition of the two `results`, the same `results`
as a single `parse_chunk` call on the whole sequence (and the same
outbound state). -/
theorem C1_chunking_invariance (mode : Bool) (a b : List Nat) (s : Nat) :
    parse_chunk mode (a ++ b) s =
      ((parse_chunk mode a s).1 + (parse_chunk mode b (parse_chunk mode a s).2).1,
        (parse_chunk mode b (parse_chunk mode a s).2).2) := by
  simp only [parse_chunk_eq, results.add_def, transitions_append,
    endState_append, List.count_append, List.length_append,
    Prod.mk.injEq, results.mk.injEq]
  refine ⟨⟨trivial, trivial, by omega, trivial⟩, trivial⟩

/-- C2: for every buffer and every inbound state, `parse_chunk`'s
`results` are derived from the per-state transition tallies exactly as:
`line_count` is the number of transitions landing in `NEWLINE`,
`word_count` the number landing in `NEWWORD`, `char_count` the number
landing in any of `NEWLINE`/`WASSPACE`/`WASWORD`/`NEWWORD`, and
`byte_count` is the buffer length (not a count of transitions).
Proved for every inbound state, hence for every in-domain one. -/
theorem C2_results_from_tallies (mode : Bool) (buf : List Nat) (s : Nat) :
    (parse_chunk mode buf s).1.line_count = (transitions mode s buf).count NEWLINE ∧
    (parse_chunk mode buf s).1.word_count = (transitions mode s buf).count NEWWORD ∧
    (parse_chunk mode buf s).1.char_count =
      (transitions mode s buf).countP (fun x => isBoundary x) ∧
    (parse_chunk mode buf s).1.byte_count = buf.length := by
  simp [parse_chunk_eq, countP_isBoundary]

/-- C9: for every inbound state and either table mode, `parse_chunk` on
an empty buffer returns all-zero `results` and leaves the state value
unchanged. -/
theorem C9_empty_buffer (mode : Bool) (s : Nat) :
    parse_chunk mode [] s =
      ({ line_count := 0, word_count := 0, char_count := 0, byte_count := 0 }, s) :=
  rfl

/-- C8: processing the three-byte buffer `0xE2 0x82 0xAC` (the Euro
sign) alone, from the initial state, with the multibyte-mode table,
yields exactly `line_count 0`, `word_count 1`, `char_count 1`,
`byte_count 3`. -/
theorem C8_euro_sign :
    (parse_chunk true [0xE2, 0x82, 0xAC] 0).1 =
      { line_count := 0, word_count := 1, char_count := 1, byte_count := 3 } := by
  decide

/-! ## Equivalence of the pointer-arithmetic variants (C3) -/

theorem run_p_eq_run (mode : Bool) (counts : Nat → Nat) (s : Nat)
    (bs : List Nat) : run_p mode counts s bs = run mode counts s bs := by
  induction bs generalizing counts s with
  | nil => rfl
  | cons c cs ih => simp [run, run_p, ih]

theorem PSTATE_mul (s : Nat) : PSTATE (s * (256 * sizeof_voidp)) = s := by
  simp only [PSTATE, sizeof_voidp]
  omega

theorem run_pp_eq_run (mode : Bool) (bs : List Nat) :
    ∀ counts s, (∀ c ∈ bs, c < 256) → s < STATE_MAX →
      run_pp mode counts (s * (256 * sizeof_voidp)) bs =
        ((run mode counts s bs).1, (run mode counts s bs).2 * (256 * sizeof_voidp)) := by
  induction bs with
  | nil => intro counts s _ _; rfl
  | cons c cs ih =>
      intro counts s hb hs
      have hc : c < 256 := hb c (by simp)
      have ht : table mode s c < STATE_MAX := table_lt mode s hs c hc
      have hp : table_p mode s c = table mode s c * (256 * sizeof_voidp) := by
        simp [table_p, hs]
      simp only [run_pp, run, PSTATE_mul, hp]
      exact ih _ _ (fun x hx => hb x (List.mem_cons_of_mem _ hx)) ht

/-- C3: for every buffer of bytes, every in-domain inbound state, and
either table mode, the pointer-arithmetic variants `parse_chunk_p` and
`parse_chunk_pp` (the latter over the `table_p` precomputed by
`compile_pointers`) return the same `results` tuple and the same
outbound state as the index-based `parse_chunk`. -/
theorem C3_pointer_variants_equiv (mode : Bool) (buf : List Nat) (s : Nat)
    (hb : ∀ c ∈ buf, c < 256) (hs : s < STATE_MAX) :
    parse_chunk_p mode buf s = parse_chunk mode buf s ∧
      parse_chunk_pp mode buf s = parse_chunk mode buf s := by
  constructor
  · simp [parse_chunk_p, parse_chunk, run_p_eq_run]
  · simp [parse_chunk_pp, parse_chunk, run_pp_eq_run mode buf _ s hb hs, PSTATE_mul]

/-- Witness for C3 at a concrete in-domain input. -/
theorem C3_pointer_variants_equiv_witness :
    parse_chunk_p false [104, 105, 32] 0 = parse_chunk false [104, 105, 32] 0 ∧
      parse_chunk_pp false [104, 105, 32] 0 = parse_chunk false [104, 105, 32] 0 :=
  C3_pointer_variants_equiv false [104, 105, 32] 0 (by decide) (by decide)

/-! ## Table shape facts (C4, C5) -/

/-- C4: in the multibyte-mode table, for each context (`USPACE` rooted
at `WASSPACE`/`NEWLINE`, `UWORD` rooted at `NEWWORD`/`WASWORD`): lead
bytes `0xC0-0xC1` and `0xF5-0xFF` transition directly from the
character-boundary states to that context's `ILLEGAL` state; after lead
byte `0xE0` only first continuation bytes `0xA0-0xBF` continue the
sequence, after `0xED` only `0x80-0x9F`, after `0xF0` only `0x90-0xBF`,
and after `0xF4` only `0x80-0x8F`, with every other byte in `0x80-0xBF`
transitioning to that context's `ILLEGAL` state. -/
theorem C4_restricted_continuation_ranges :
    (∀ c, c < 256 →
      (0xC0 ≤ c ∧ c ≤ 0xC1) ∨ 0xF5 ≤ c →
        table true WASSPACE c = USPACE + ILLEGAL ∧
        table true NEWLINE c = USPACE + ILLEGAL ∧
        table true NEWWORD c = UWORD + ILLEGAL ∧
        table true WASWORD c = UWORD + ILLEGAL) ∧
    (∀ c, c < 256 →
      0x80 ≤ c ∧ c ≤ 0xBF →
        ∀ ub, (ub = USPACE ∨ ub = UWORD) →
          (table true (ub + TRI2_E0) c =
            if 0xA0 ≤ c then ub + TRI3_E0_xx else ub + ILLEGAL) ∧
          (table true (ub + TRI2_ED) c =
            if c < 0xA0 then ub + TRI3_Ed_xx else ub + ILLEGAL) ∧
          (table true (ub + QUAD2_F0) c =
            if 0x90 ≤ c then ub + QUAD3_F0_xx else ub + ILLEGAL) ∧
          (table true (ub + QUAD2_F4) c =
            if c < 0x90 then ub + QUAD3_F4_xx else ub + ILLEGAL)) := by
  refine ⟨by decide, fun c hc hr ub hub => ?_⟩
  have h : ∀ c, c < 256 → 0x80 ≤ c ∧ c ≤ 0xBF →
      (table true (USPACE + TRI2_E0) c =
        if 0xA0 ≤ c then USPACE + TRI3_E0_xx else USPACE + ILLEGAL) ∧
      (table true (USPACE + TRI2_ED) c =
        if c < 0xA0 then USPACE + TRI3_Ed_xx else USPACE + ILLEGAL) ∧
      (table true (USPACE + QUAD2_F0) c =
        if 0x90 ≤ c then USPACE + QUAD3_F0_xx else USPACE + ILLEGAL) ∧
      (table true (USPACE + QUAD2_F4) c =
        if c < 0x90 then USPACE + QUAD3_F4_xx else USPACE + ILLEGAL) := by
    decide
  have h2 : ∀ c, c < 256 → 0x80 ≤ c ∧ c ≤ 0xBF →
      (table true (UWORD + TRI2_E0) c =
        if 0xA0 ≤ c then UWORD + TRI3_E0_xx else UWORD + ILLEGAL) ∧
      (table true (UWORD + TRI2_ED) c =
        if c < 0xA0 then UWORD + TRI3_Ed_xx else UWORD + ILLEGAL) ∧
      (table true (UWORD + QUAD2_F0) c =
        if 0x90 ≤ c then UWORD + QUAD3_F0_xx else UWORD + ILLEGAL) ∧
      (table true (UWORD + QUAD2_F4) c =
        if c < 0x90 then UWORD + QUAD3_F4_xx else UWORD + ILLEGAL) := by
    decide
  cases hub with
  | inl hu => exact hu ▸ h c hc hr
  | inr hu => exact hu ▸ h2 c hc hr

/-- Witness for C4 at concrete bytes: `0xC0` from `WASSPACE` is
illegal, and `0xA0`/`0x9F` after the `0xE0` lead continue / reject. -/
theorem C4_restricted_continuation_ranges_witness :
    table true WASSPACE 0xC0 = USPACE + ILLEGAL ∧
    table true (USPACE + TRI2_E0) 0xA0 = USPACE + TRI3_E0_xx ∧
    table true (USPACE + TRI2_E0) 0x9F = USPACE + ILLEGAL := by
  refine ⟨(C4_restricted_continuation_ranges.1 0xC0 (by decide)
    (Or.inl (by decide))).1, ?_, ?_⟩
  · have h := (C4_restricted_continuation_ranges.2 0xA0 (by decide)
      (by decide) USPACE (Or.inl rfl)).1
    simpa using h
  · have h := (C4_restricted_continuation_ranges.2 0x9F (by decide)
      (by decide) USPACE (Or.inl rfl)).1
    simpa using h

/-- C5: in the multibyte-mode table, from either context's `ILLEGAL`
state every continuation byte `0x80-0xBF` transitions back into that
same `ILLEGAL` state (an illegal prefix never recovers via a
continuation byte); ASCII bytes are mapped from the `ILLEGAL` states and
from the four character-boundary (sequence-completing) states exactly as
the 4-state ASCII base automaton maps them, and new lead bytes
(`0xC0-0xFF`) are mapped from the `ILLEGAL` states exactly as from the
context's root boundary state. -/
theorem C5_illegal_absorbs :
    (∀ c, c < 256 →
      0x80 ≤ c ∧ c ≤ 0xBF →
        table true (USPACE + ILLEGAL) c = USPACE + ILLEGAL ∧
        table true (UWORD + ILLEGAL) c = UWORD + ILLEGAL) ∧
    (∀ c, c < 256 →
      c ≤ 0x7F →
        table true (USPACE + ILLEGAL) c = table false WASSPACE c ∧
        table true (UWORD + ILLEGAL) c = table false WASWORD c ∧
        table true WASSPACE c = table false WASSPACE c ∧
        table true NEWLINE c = table false NEWLINE c ∧
        table true NEWWORD c = table false NEWWORD c ∧
        table true WASWORD c = table false WASWORD c) ∧
    (∀ c, c < 256 →
      0xC0 ≤ c →
        table true (USPACE + ILLEGAL) c = table true WASSPACE c ∧
        table true (UWORD + ILLEGAL) c = table true WASWORD c) :=
  ⟨by decide, by decide, by decide⟩

/-- Witness for C5 at concrete bytes `0x80`, `0x41` and `0xC2`. -/
theorem C5_illegal_absorbs_witness :
    table true (USPACE + ILLEGAL) 0x80 = USPACE + ILLEGAL ∧
    table true (UWORD + ILLEGAL) 0x41 = table false WASWORD 0x41 ∧
    table true (USPACE + ILLEGAL) 0xC2 = table true WASSPACE 0xC2 :=
  ⟨(C5_illegal_absorbs.1 0x80 (by decide) (by decide)).1,
   (C5_illegal_absorbs.2.1 0x41 (by decide) (by decide)).2.1,
   (C5_illegal_absorbs.2.2 0xC2 (by decide) (by decide)).1⟩

/-! ## State-domain safety (C10) -/

/-- Invariant transport: from an in-domain state, every state entered
while processing in-range bytes stays in-domain. -/
theorem transitions_lt (mode : Bool) (buf : List Nat) :
    ∀ s, s < STATE_MAX → (∀ c ∈ buf, c < 256) →
      ∀ x ∈ transitions mode s buf, x < STATE_MAX := by
  induction buf with
  | nil => intro s _ _ x hx; simp [transitions] at hx
  | cons c cs ih =>
      intro s hs hb x hx
      have hc : c < 256 := hb c (by simp)
      have ht := table_lt mode s hs c hc
      simp only [transitions, List.mem_cons] at hx
      cases hx with
      | inl h => exact h ▸ ht
      | inr h =>
          exact ih (table mode s c) ht
            (fun y hy => hb y (List.mem_cons_of_mem _ hy)) x h

/-- Counterexample to C10 as stated: `STATE_MAX` is 66, not 64, and the
multibyte table really contains the entry 65 (`UWORD + ILLEGAL`), e.g.
at `table[WASWORD][0xC0]`, so not every entry is below 64. -/
theorem C10_counterexample :
    table true WASWORD 0xC0 = 65 ∧ ¬ (65 < 64) ∧ STATE_MAX = 66 := by
  decide

/-- C10 (amended: `STATE_MAX` is 66, not 64): every entry of the rows
built by `compile_utf8_statemachine` is a state index strictly below
`STATE_MAX` (in ASCII mode the four built rows only hold indices below
4); consequently, starting from initial state 0, the state carried
through `parse_chunk` stays inside the table's domain after every byte
of every input, so no table lookup is ever out of range. -/
theorem C10_entries_in_domain :
    STATE_MAX = 66 ∧
    (∀ s, s < STATE_MAX → ∀ c, c < 256 → table true s c < STATE_MAX) ∧
    (∀ s, s < 4 → ∀ c, c < 256 → table false s c < 4) ∧
    (∀ (mode : Bool) (buf : List Nat), (∀ c ∈ buf, c < 256) →
      ∀ x ∈ transitions mode 0 buf, x < STATE_MAX) := by
  refine ⟨rfl, fun s hs c hc => table_lt true s hs c hc, by decide,
    fun mode buf hb x hx => transitions_lt mode buf 0 (by decide) hb x hx⟩

/-- Witness for C10 at concrete inputs. -/
theorem C10_entries_in_domain_witness :
    table true 0 0xE2 < STATE_MAX ∧ table false 0 0x61 < 4 :=
  ⟨C10_entries_in_domain.2.1 0 (by decide) 0xE2 (by decide),
   C10_entries_in_domain.2.2.1 0 (by decide) 0x61 (by decide)⟩

/-! ## char_count versus byte_count (C6) -/

/-- ASCII bytes keep the multibyte-mode automaton in the four
character-boundary states. -/
theorem table_ascii_lt : ∀ s, s < 4 → ∀ c, c < 128 →
    table true s c < 4 := by decide

/-- A byte with the high bit set moves the multibyte-mode automaton
from a character-boundary state into a continuation or illegal
sub-state. -/
theorem table_mb_escape : ∀ s, s < 4 → ∀ c, c < 256 → 128 ≤ c →
    4 ≤ table true s c := by decide

theorem boundary_countP_eq_iff (buf : List Nat) :
    ∀ s, s < 4 → (∀ c ∈ buf, c < 256) →
      ((transitions true s buf).countP (fun x => isBoundary x) = buf.length ↔
        ∀ c ∈ buf, c < 128) := by
  induction buf with
  | nil => intro s _ _; simp [transitions]
  | cons c cs ih =>
      intro s hs hb
      have hc : c < 256 := hb c (by simp)
      simp only [transitions, List.countP_cons, List.length_cons, List.mem_cons]
      by_cases h : c < 128
      · have ht : table true s c < 4 := table_ascii_lt s hs c h
        have hbnd : isBoundary (table true s c) = true := (isBoundary_iff _).2 ht
        rw [hbnd]
        simp only [eq_self_iff_true, if_true]
        have hih := ih (table true s c) ht
          (fun y hy => hb y (List.mem_cons_of_mem _ hy))
        constructor
        · intro he x hx
          rcases hx with rfl | hx
          · exact h
          · exact hih.1 (by omega) x hx
        · intro hall
          have := hih.2 (fun x hx => hall x (Or.inr hx))
          omega
      · have ht : 4 ≤ table true s c := table_mb_escape s hs c hc (by omega)
        have hbnd : isBoundary (table true s c) = false := by
          cases h2 : isBoundary (table true s c) with
          | false => rfl
          | true => exact absurd ((isBoundary_iff _).1 h2) (by omega)
        rw [hbnd]
        simp only [Bool.false_eq_true, if_false]
        have hle : (transitions true (table true s c) cs).countP
            (fun x => isBoundary x) ≤ cs.length := by
          calc (transitions true (table true s c) cs).countP (fun x => isBoundary x)
              ≤ (transitions true (table true s c) cs).length :=
                List.countP_le_length _
            _ = cs.length := transitions_length true (table true s c) cs
        constructor
        · intro he; omega
        · intro hall; exact absurd (hall c (Or.inl rfl)) (by omega)

/-- C6: for every buffer of bytes, `char_count` is at most `byte_count`
(in either mode and from any inbound state); and, processing from the
initial state with the multibyte-mode table (the mode the program
builds whenever characters are counted), `char_count` equals
`byte_count` if and only if the input contains no multi-byte UTF-8
sequence — complete, partial or illegal — i.e. iff every byte is ASCII
(`< 0x80`). -/
theorem C6_char_le_byte (buf : List Nat) (hb : ∀ c ∈ buf, c < 256) :
    (∀ (mode : Bool) (s : Nat),
      (parse_chunk mode buf s).1.char_count ≤ (parse_chunk mode buf s).1.byte_count) ∧
    ((parse_chunk true buf 0).1.char_count = (parse_chunk true buf 0).1.byte_count ↔
      ∀ c ∈ buf, c < 128) := by
  constructor
  · intro mode s
    simp only [parse_chunk_eq]
    rw [← countP_isBoundary]
    calc (transitions mode s buf).countP (fun x => isBoundary x)
        ≤ (transitions mode s buf).length := List.countP_le_length _
      _ = buf.length := transitions_length mode s buf
  · simp only [parse_chunk_eq]
    rw [← countP_isBoundary]
    exact boundary_countP_eq_iff buf 0 (by decide) hb

/-- Witness for C6 on the Euro-sign buffer: `char_count` is below
`byte_count` there. -/
theorem C6_char_le_byte_witness :
    (parse_chunk true [0xE2, 0x82, 0xAC] 0).1.char_count ≤
      (parse_chunk true [0xE2, 0x82, 0xAC] 0).1.byte_count :=
  (C6_char_le_byte [0xE2, 0x82, 0xAC] (by decide)).1 true 0

/-! ## Word-run counting in ASCII mode (C7) -/

/-- ASCII word bytes (non-space, which excludes the newline byte)
always move the ASCII-mode automaton into `NEWWORD` from the space-like
states and into `WASWORD` from the word states. -/
theorem table_word_byte : ∀ c, c < 128 → isspace c = false → ∀ s, s < 4 →
    table false s c =
      (if s = WASSPACE ∨ s = NEWLINE then NEWWORD else WASWORD) := by decide

/-- The space byte returns every ASCII-mode state to `WASSPACE`. -/
theorem table_space_byte : ∀ s, s < 4 → table false s 32 = WASSPACE := by decide

/-- A byte that can appear inside a word run of claim C7: ASCII and not
white space (in particular not the newline byte). -/
def nonSpaceAscii (c : Nat) : Bool := decide (c < 128 ∧ isspace c = false)

/-- `k` maximal runs of non-space bytes separated by single spaces. -/
def sepBySpace : List (List Nat) → List Nat
  | [] => []
  | [w] => w
  | w :: ws => w ++ 32 :: sepBySpace ws

theorem word_run_tail (w : List Nat) :
    ∀ s, (s = NEWWORD ∨ s = WASWORD) → (∀ c ∈ w, nonSpaceAscii c = true) →
      transitions false s w = List.replicate w.length WASWORD := by
  induction w with
  | nil => intro s _ _; rfl
  | cons c cs ih =>
      intro s hs hw
      have hc : c < 128 ∧ isspace c = false := by
        simpa [nonSpaceAscii] using hw c (by simp)
      have h4 : s < 4 := by
        rcases hs with rfl | rfl <;> simp [NEWWORD, WASWORD]
      have hstep : table false s c = WASWORD := by
        rw [table_word_byte c hc.1 hc.2 s h4]
        rcases hs with rfl | rfl <;> simp [NEWWORD, WASWORD, WASSPACE, NEWLINE]
      simp only [transitions, hstep, List.length_cons, List.replicate_succ]
      exact congrArg _ (ih WASWORD (Or.inr rfl)
        (fun y hy => hw y (List.mem_cons_of_mem _ hy)))

theorem word_run_head (w : List Nat) (hne : w ≠ [])
    (hw : ∀ c ∈ w, nonSpaceAscii c = true) :
    transitions false WASSPACE w =
      NEWWORD :: List.replicate (w.length - 1) WASWORD := by
  cases w with
  | nil => exact absurd rfl hne
  | cons c cs =>
      have hc : c < 128 ∧ isspace c = false := by
        simpa [nonSpaceAscii] using hw c (by simp)
      have hstep : table false WASSPACE c = NEWWORD := by
        rw [table_word_byte c hc.1 hc.2 WASSPACE (by decide)]
        simp
      simp only [transitions, hstep, List.length_cons, Nat.add_sub_cancel]
      exact congrArg _ (word_run_tail cs NEWWORD (Or.inl rfl)
        (fun y hy => hw y (List.mem_cons_of_mem _ hy)))

theorem word_run_end (w : List Nat) :
    ∀ s, (s = NEWWORD ∨ s = WASWORD) → (∀ c ∈ w, nonSpaceAscii c = true) →
      (endState false s w = NEWWORD ∨ endState false s w = WASWORD) := by
  induction w with
  | nil => intro s hs _; exact hs
  | cons c cs ih =>
      intro s hs hw
      have hc : c < 128 ∧ isspace c = false := by
        simpa [nonSpaceAscii] using hw c (by simp)
      have h4 : s < 4 := by
        rcases hs with rfl | rfl <;> simp [NEWWORD, WASWORD]
      have hstep : table false s c = WASWORD := by
        rw [table_word_byte c hc.1 hc.2 s h4]
        rcases hs with rfl | rfl <;> simp [NEWWORD, WASWORD, WASSPACE, NEWLINE]
      simp only [endState, hstep]
      exact ih WASWORD (Or.inr rfl) (fun y hy => hw y (List.mem_cons_of_mem _ hy))

theorem word_run_end0 (w : List Nat) (hne : w ≠ [])
    (hw : ∀ c ∈ w, nonSpaceAscii c = true) :
    endState false WASSPACE w = NEWWORD ∨ endState false WASSPACE w = WASWORD := by
  cases w with
  | nil => exact absurd rfl hne
  | cons c cs =>
      have hc : c < 128 ∧ isspace c = false := by
        simpa [nonSpaceAscii] using hw c (by simp)
      have hstep : table false WASSPACE c = NEWWORD := by
        rw [table_word_byte c hc.1 hc.2 WASSPACE (by decide)]
        simp
      simp only [endState, hstep]
      exact word_run_end cs NEWWORD (Or.inl rfl)
        (fun y hy => hw y (List.mem_cons_of_mem _ hy))

theorem runs_trace_count (runs : List (List Nat)) :
    (∀ w ∈ runs, w ≠ [] ∧ ∀ c ∈ w, nonSpaceAscii c = true) →
      (transitions false WASSPACE (sepBySpace runs)).count NEWWORD = runs.length ∧
      (transitions false WASSPACE (sepBySpace runs)).count NEWLINE = 0 := by
  induction runs with
  | nil => intro _; simp [sepBySpace, transitions]
  | cons w ws ih =>
      intro h
      have hw := h w (by simp)
      cases ws with
      | nil =>
          show (transitions false WASSPACE w).count NEWWORD = 1 ∧
            (transitions false WASSPACE w).count NEWLINE = 0
          rw [word_run_head w hw.1 hw.2]
          constructor <;>
            simp [List.count_cons, List.count_replicate, NEWWORD, NEWLINE, WASWORD]
      | cons w2 ws2 =>
          have hsep : sepBySpace (w :: w2 :: ws2) = w ++ 32 :: sepBySpace (w2 :: ws2) :=
            rfl
          have hend := word_run_end0 w hw.1 hw.2
          have hspace : table false (endState false WASSPACE w) 32 = WASSPACE := by
            rcases hend with he | he <;> rw [he] <;> decide
          have hih := ih (fun x hx => h x (List.mem_cons_of_mem _ hx))
          rw [hsep, transitions_append]
          have hcount1 : (transitions false WASSPACE w).count NEWWORD = 1 ∧
              (transitions false WASSPACE w).count NEWLINE = 0 := by
            rw [word_run_head w hw.1 hw.2]
            constructor <;>
              simp [List.count_cons, List.count_replicate, NEWWORD, NEWLINE, WASWORD]
          have htail : transitions false (endState false WASSPACE w)
              (32 :: sepBySpace (w2 :: ws2)) =
              WASSPACE :: transitions false WASSPACE (sepBySpace (w2 :: ws2)) := by
            simp [transitions, hspace]
          rw [htail]
          simp only [List.count_append, List.count_cons, List.length_cons]
          constructor
          · have : ¬ (NEWWORD == WASSPACE) = true := by decide
            simp only [beq_iff_eq]
            rw [hcount1.1, hih.1]
            simp [NEWWORD, WASSPACE]
            omega
          · simp only [beq_iff_eq]
            rw [hcount1.2, hih.2]
            simp [NEWLINE, WASSPACE]

/-- C7: for every ASCII-only input with no newline byte, consisting of
`k` maximal runs of non-space bytes separated by single spaces,
processing it from the initial state with the ASCII-mode table yields
`word_count = k` and `line_count = 0`. -/
theorem C7_word_runs (runs : List (List Nat))
    (h : ∀ w ∈ runs, w ≠ [] ∧ ∀ c ∈ w, nonSpaceAscii c = true) :
    (parse_chunk false (sepBySpace runs) 0).1.word_count = runs.length ∧
    (parse_chunk false (sepBySpace runs) 0).1.line_count = 0 := by
  have hr := runs_trace_count runs h
  simp only [parse_chunk_eq]
  exact ⟨hr.1, hr.2⟩

/-- Witness for C7 on the two-run input `"hi w"`. -/
theorem C7_word_runs_witness :
    (parse_chunk false (sepBySpace [[104, 105], [119]]) 0).1.word_count = 2 ∧
    (parse_chunk false (sepBySpace [[104, 105], [119]]) 0).1.line_count = 0 :=
  C7_word_runs [[104, 105], [119]] (by decide)

end Wc2
